import Mathlib

/-!
Verification development for the laughatlas real-time laughter-detection
pipeline.

The definitions below are a shallow embedding of the Python sources:
  * `src/realtime/listen_and_detect.py` — the streaming pipeline
    (`stream_and_detect`, `parse_args`);
  * `src/utils/audio_features.py` — `extract_features` input sanitisation
    and `frame_audio`.

Audio samples are modelled as `Int` values (their numeric content is
irrelevant to the buffer/queue/decision logic), probabilities and
configured seconds as exact rationals `ℚ`, and a Python operation that
raises an uncaught exception is modelled as returning `none`.
-/

namespace Laughatlas

/-- Python `int()` applied to a rational: truncation toward zero
(`int(2.7) = 2`, `int(-2.7) = -2`). -/
def pyInt (q : ℚ) : Int :=
  if q < 0 then -⌊-q⌋ else ⌊q⌋

/-!
Section: RingBuffer (lines 63, 80–81 of `listen_and_detect.py`)

The rolling buffer update is
```
audio_buffer = np.roll(audio_buffer, -len(block))
audio_buffer[-len(block):] = block
```
`np.roll(buf, -n)` cyclically shifts and never fails.  The slice
assignment writes `block` (shape `(n,)`) into the slice `buf[-n:]`:
for `1 ≤ n ≤ len(buf)` that slice has length `n` and the result is
`buf[n:] ++ block`; for `n > len(buf)` the slice clamps to the whole
buffer and numpy raises a broadcast error (shapes `(n,)` vs
`(len,)`) unless they happen to broadcast (`n = 1`, only possible
here with an empty buffer, where broadcasting into an empty slice is
a no-op); for `n = 0` the slice `buf[-0:] = buf[0:]` is the whole
buffer and assigning shape `(0,)` raises unless the buffer is empty.
An exception is uncaught in the consumer loop, so it is modelled as
`none`.
-/

/-- One ring-buffer update (lines 80–81), with numpy's slice-assignment
broadcast semantics as described above. -/
def push (buf block : List Int) : Option (List Int) :=
  if block.length = 0 then
    if buf.length = 0 then some [] else none
  else if block.length ≤ buf.length then
    some (buf.drop block.length ++ block)
  else if block.length = 1 then
    some []
  else none

/-- The last `n` entries of a list (the whole list when `n` exceeds its
length). -/
def lastN (l : List Int) (n : Nat) : List Int :=
  l.drop (l.length - n)

/-- Folding a sequence of captured blocks into the buffer, one consumer
iteration after another; `none` as soon as one update raises. -/
def pushAll (buf : List Int) : List (List Int) → Option (List Int)
  | [] => some buf
  | b :: bs => (push buf b).bind fun buf2 => pushAll buf2 bs

/-!
Section: Threshold decision and consumer loop (lines 73–90 of
`listen_and_detect.py`)

Each loop iteration takes a block from the queue, folds it into the
buffer (lines 80–81), classifies the whole buffer (lines 84–85) and,
when `prob >= args.threshold` (line 86, inclusive, no clamping
anywhere), logs an event carrying `prob` itself (lines 87–88).  The
composition `extract_features` + `clf.predict_proba` is an external
collaborator, modelled as an abstract `classify : List Int → Option ℚ`
(`none` = the call raised).  No `try`/`except` surrounds lines 80–88,
so any exception there ends the loop: modelled as the whole run
returning `none`.
-/

/-- The decision of lines 86–88: the event logged for a window with
classifier output `prob`, or `none` when no event is logged.  The raw
`prob` is compared and recorded; no clamping occurs in the source. -/
def emittedEvent (prob threshold : ℚ) : Option ℚ :=
  if threshold ≤ prob then some prob else none

/-- Clamping to `[0,1]`, as the specification's numeric policy describes
it (it does not appear in the source). -/
def clamp01 (p : ℚ) : ℚ :=
  max 0 (min 1 p)

/-- The consumer loop of lines 73–90 run over a finite arrival sequence:
returns the final buffer and the list of logged event probabilities in
order, or `none` if an uncaught exception (buffer broadcast error, or a
`classify` failure) killed the loop. -/
def runLoop (classify : List Int → Option ℚ) (threshold : ℚ)
    (buf : List Int) : List (List Int) → Option (List Int × List ℚ)
  | [] => some (buf, [])
  | block :: rest =>
    (push buf block).bind fun buf2 =>
      (classify buf2).bind fun prob =>
        (runLoop classify threshold buf2 rest).map fun r =>
          (r.1, ((emittedEvent prob threshold).toList) ++ r.2)

/-- A concrete classifier stub for counterexamples: it raises on the
window `[1]` and returns probability `1` on every other window. -/
def classifyCE (b : List Int) : Option ℚ :=
  if b = [1] then none else some 1

/-!
Section: Producer queue (lines 64 and 69 of `listen_and_detect.py`)

`q_in: queue.Queue[np.ndarray] = queue.Queue()` — constructed with no
`maxsize`, hence unbounded; the audio callback does `q_in.put(...)`,
which appends at the tail and never evicts or blocks.
-/

/-- `queue.Queue.put` on the unbounded queue of line 64: append at the
tail. -/
def queuePut (q : List (List Int)) (block : List Int) : List (List Int) :=
  q ++ [block]

/-- A burst of producer callbacks before the consumer drains anything:
successive `put`s. -/
def queuePutAll (q : List (List Int)) (blocks : List (List Int)) : List (List Int) :=
  blocks.foldl queuePut q

/-!
Section: Startup (lines 49–72, 101–107 of `listen_and_detect.py`)

`parse_args` (lines 101–107) declares `--location`, `--threshold`,
`--window`, `--hop` with no bounds or cross-field checks; argparse
accepts any float values.  `stream_and_detect` (lines 49–72) hardcodes
`sr = 16000`, computes `block_size = int(hop_seconds * sr)`, allocates
`audio_buffer = np.zeros(int(window_seconds * sr), dtype=np.float32)`
and enters the listening loop.  No configuration validation occurs
anywhere; the only configuration-dependent failure on this path is
`np.zeros` raising on a negative size (`int(window * sr) < 0`).
Model loading and audio-device I/O are external collaborators and out
of scope here.
-/

/-- The fixed sample rate of line 58. -/
def sr : Nat := 16000

/-- The initial rolling buffer of line 63: `int(window_seconds * sr)`
zero samples. -/
def audioBufferInit (window_seconds : ℚ) : List Int :=
  List.replicate (Int.toNat (pyInt (window_seconds * sr))) 0

/-- Startup of `stream_and_detect` as far as configuration is concerned
(lines 49–72): returns the initial buffer, the capture block size and
the threshold the loop will use, or `none` when `np.zeros` raises on a
negative size.  Note that no relation between `window` and `hop` and no
bounds on `threshold` are checked. -/
def startup (window hop threshold : ℚ) : Option (List Int × Int × ℚ) :=
  if pyInt (window * sr) < 0 then none
  else some (audioBufferInit window, pyInt (hop * sr), threshold)

/-!
Section: Input sanitisation in `extract_features` (lines 10–13 of
`audio_features.py`)

For 1-D input the function runs `audio = np.nan_to_num(audio)` before
any feature computation.  IEEE-754 special values are modelled
symbolically; `np.nan_to_num` with default arguments replaces NaN with
`0.0`, `+inf` with the largest finite float64 and `-inf` with its
negation, and leaves finite values unchanged, elementwise.
-/

/-- A Python/numpy float64 value, with the special values explicit and
the finite ones exact. -/
inductive PyFloat where
  | finite (q : ℚ)
  | nan
  | inf
  | ninf
deriving DecidableEq, Repr

/-- Whether a modelled float is finite. -/
def PyFloat.isFinite : PyFloat → Bool
  | .finite _ => true
  | _ => false

/-- The largest finite IEEE-754 float64, `(2^53 - 1) * 2^971`
(= 1.7976931348623157e308), which `np.nan_to_num` substitutes for
`+inf`. -/
def float64Max : ℚ :=
  (2 ^ 53 - 1) * 2 ^ 971

/-- `np.nan_to_num` with default arguments, on one element. -/
def nanToNum : PyFloat → PyFloat
  | .nan => .finite 0
  | .inf => .finite float64Max
  | .ninf => .finite (-float64Max)
  | .finite q => .finite q

/-- Lines 10–13 of `extract_features` on 1-D input: the sanitised audio
handed to every subsequent feature computation. -/
def extractFeaturesSanitize (audio : List PyFloat) : List PyFloat :=
  audio.map nanToNum

/-!
Section: `frame_audio` (lines 45–58 of `audio_features.py`)

```
win = int(window_seconds * sr)
hop = int(hop_seconds * sr)
for start in range(0, max(1, len(audio) - win + 1), hop):
    end = start + win
    if end > len(audio):
        break
    frames.append((audio[start:end], sr))
```
`range(0, stop, step)` for `step ≥ 1` is `[0, step, 2*step, ...]` with
`⌈stop/step⌉` elements; the `break` keeps exactly the longest prefix of
starts whose window fits (`takeWhile`), since starts increase.  (For
`step = 0` Python raises; the theorems below assume a positive hop.)
-/

/-- `int(window_seconds * sr)` of line 50, as a sample count. -/
def winSamples (sampleRate : Nat) (window_seconds : ℚ) : Nat :=
  Int.toNat (pyInt (window_seconds * sampleRate))

/-- `int(hop_seconds * sr)` of line 51, as a sample count. -/
def hopSamples (sampleRate : Nat) (hop_seconds : ℚ) : Nat :=
  Int.toNat (pyInt (hop_seconds * sampleRate))

/-- `range(0, stop, step)` for a positive step. -/
def pyRange (stop step : Nat) : List Nat :=
  List.range' 0 ((stop + step - 1) / step) step

/-- The start offsets the loop of lines 53–57 actually appends a frame
for: the candidates `range(0, max(1, len - win + 1), hop)`, cut off by
the `break` at the first start whose window overruns the input. -/
def frameStarts (len win hop : Nat) : List Nat :=
  (pyRange (max 1 (len + 1 - win)) hop).takeWhile
    (fun start => decide (start + win ≤ len))

/-- `frame_audio` of lines 45–58 (the constant `sr` component of each
returned pair is omitted; each list entry is one `window_audio`). -/
def frame_audio (audio : List Int) (sampleRate : Nat)
    (window_seconds hop_seconds : ℚ) : List (List Int) :=
  (frameStarts audio.length (winSamples sampleRate window_seconds)
      (hopSamples sampleRate hop_seconds)).map
    (fun start => (audio.drop start).take (winSamples sampleRate window_seconds))

/-!
Section: Helper lemmas
-/

theorem push_eq_of_le (buf block : List Int) (h1 : 1 ≤ block.length)
    (h2 : block.length ≤ buf.length) :
    push buf block = some (buf.drop block.length ++ block) := by
  unfold push
  rw [if_neg (by omega), if_pos h2]

theorem lastN_append (x y : List Int) (n : Nat) (h : n ≤ y.length) :
    lastN (x ++ y) n = lastN y n := by
  unfold lastN
  rw [List.length_append]
  have hx : x.length + y.length - n = x.length + (y.length - n) := by omega
  rw [hx, List.drop_append]

theorem lastN_length (l : List Int) (n : Nat) (h : n ≤ l.length) :
    (lastN l n).length = n := by
  unfold lastN
  rw [List.length_drop]
  omega

/-- Core sliding-window lemma: for blocks that are nonempty and no longer
than the buffer, every update succeeds and the buffer always holds the
last `buf.length` samples of everything seen so far. -/
theorem pushAll_eq (blocks : List (List Int)) (buf : List Int)
    (h : ∀ b ∈ blocks, 1 ≤ b.length ∧ b.length ≤ buf.length) :
    pushAll buf blocks = some (lastN (buf ++ blocks.flatten) buf.length) := by
  induction blocks generalizing buf with
  | nil =>
    simp [pushAll, lastN]
  | cons b bs ih =>
    have hb := h b (List.mem_cons_self b bs)
    have hstep := push_eq_of_le buf b hb.1 hb.2
    have hlen : (buf.drop b.length ++ b).length = buf.length := by
      rw [List.length_append, List.length_drop]
      omega
    have hrec := ih (buf.drop b.length ++ b) (by
      intro c hc
      have := h c (List.mem_cons_of_mem b hc)
      rw [hlen]
      exact this)
    rw [hlen] at hrec
    have h1 : buf ++ (b :: bs).flatten =
        List.take b.length buf ++ (List.drop b.length buf ++ b ++ bs.flatten) := by
      conv_lhs => rw [← List.take_append_drop b.length buf]
      simp only [List.flatten_cons, List.append_assoc]
    have h2 : buf.length ≤ (List.drop b.length buf ++ b ++ bs.flatten).length := by
      simp only [List.length_append, List.length_drop]
      omega
    have hsuffix := lastN_append (List.take b.length buf)
      (List.drop b.length buf ++ b ++ bs.flatten) buf.length h2
    simp only [pushAll, hstep, Option.some_bind]
    rw [hrec, h1, hsuffix]

/-- Indexing into `takeWhile`: the `i`-th retained element is the `i`-th
element of the underlying list and satisfies the predicate. -/
theorem takeWhile_get? {α : Type} (p : α → Bool) (l : List α) (i : Nat)
    (x : α) (h : (l.takeWhile p).get? i = some x) :
    l.get? i = some x ∧ p x = true := by
  induction l generalizing i with
  | nil => simp [List.takeWhile] at h
  | cons a l ih =>
    by_cases hpa : p a
    · rw [List.takeWhile_cons_of_pos hpa] at h
      cases i with
      | zero =>
        simp only [List.get?] at h ⊢
        cases h
        exact ⟨rfl, hpa⟩
      | succ j =>
        simp only [List.get?] at h ⊢
        exact ih j h
    · rw [List.takeWhile_cons_of_neg hpa] at h
      simp at h

/-- The `i`-th retained start offset is `i * hop`, and its window fits
inside the input. -/
theorem frameStarts_get? (len win hop i s : Nat)
    (h : (frameStarts len win hop).get? i = some s) :
    s = i * hop ∧ s + win ≤ len := by
  obtain ⟨h1, h2⟩ := takeWhile_get? _ _ i s h
  obtain ⟨hl, hget⟩ := List.get?_eq_some.1 h1
  have hval : (pyRange (max 1 (len + 1 - win)) hop).get ⟨i, hl⟩ = hop * i := by
    unfold pyRange at hl ⊢
    simp [List.get_eq_getElem, List.getElem_range']
  rw [hval] at hget
  constructor
  · rw [Nat.mul_comm]
    exact hget.symm
  · exact of_decide_eq_true h2

/-- Each returned frame is the slice of `win` samples starting at
`i * hop`, entirely inside the input. -/
theorem frame_audio_get? (audio : List Int) (sampleRate : Nat)
    (window_seconds hop_seconds : ℚ) (i : Nat) (f : List Int)
    (h : (frame_audio audio sampleRate window_seconds hop_seconds).get? i
      = some f) :
    f = (audio.drop (i * hopSamples sampleRate hop_seconds)).take
        (winSamples sampleRate window_seconds)
      ∧ i * hopSamples sampleRate hop_seconds
          + winSamples sampleRate window_seconds ≤ audio.length := by
  unfold frame_audio at h
  rw [List.get?_eq_getElem?, List.getElem?_map] at h
  rcases Option.map_eq_some'.1 h with ⟨s, hs1, hs2⟩
  rw [← List.get?_eq_getElem?] at hs1
  obtain ⟨hseq, hsle⟩ := frameStarts_get? audio.length
    (winSamples sampleRate window_seconds) (hopSamples sampleRate hop_seconds)
    i s hs1
  subst hseq
  exact ⟨hs2.symm, hsle⟩

/-- When the input is shorter than one window, no frame is produced. -/
theorem frame_audio_short (audio : List Int) (sampleRate : Nat)
    (window_seconds hop_seconds : ℚ)
    (hh : 1 ≤ hopSamples sampleRate hop_seconds)
    (hshort : audio.length < winSamples sampleRate window_seconds) :
    frame_audio audio sampleRate window_seconds hop_seconds = [] := by
  unfold frame_audio frameStarts
  have hstop : max 1 (audio.length + 1 - winSamples sampleRate window_seconds)
      = 1 := by omega
  rw [hstop]
  unfold pyRange
  have hdiv : (1 + hopSamples sampleRate hop_seconds - 1)
      / hopSamples sampleRate hop_seconds = 1 := by
    have h1 : 1 + hopSamples sampleRate hop_seconds - 1
        = hopSamples sampleRate hop_seconds := by omega
    rw [h1, Nat.div_self (by omega)]
  rw [hdiv]
  have hr : List.range' 0 1 (hopSamples sampleRate hop_seconds) = [0] := by
    simp [List.range']
  rw [hr]
  rw [List.takeWhile_cons_of_neg (by simp only [decide_eq_true_eq]; omega)]
  simp

/-!
Section: Claim theorems
-/

/-- C1: RingBuffer sliding-window correctness.  Starting from the
silence-filled buffer of capacity `cap`, folding any sequence of blocks
(each nonempty and no longer than the capacity, so that the numpy slice
assignment of lines 80–81 is defined) succeeds, and the resulting
buffer — what `snapshot()` would return — has length exactly `cap` and
equals the last `cap` samples of the initial zeros followed by all
pushed samples in arrival order, oldest evicted first.  Applying this
to every prefix of the arrival sequence gives the invariant after each
push. -/
theorem ringbuffer_sliding_window (cap : Nat) (blocks : List (List Int))
    (h : ∀ b ∈ blocks, 1 ≤ b.length ∧ b.length ≤ cap) :
    pushAll (List.replicate cap 0) blocks
        = some (lastN (List.replicate cap 0 ++ blocks.flatten) cap)
      ∧ (lastN (List.replicate cap 0 ++ blocks.flatten) cap).length = cap := by
  have hlen : (List.replicate cap (0 : Int)).length = cap :=
    List.length_replicate cap 0
  constructor
  · have hmain := pushAll_eq blocks (List.replicate cap 0) (by rw [hlen]; exact h)
    rw [hlen] at hmain
    exact hmain
  · apply lastN_length
    rw [List.length_append, hlen]
    omega

/-- Witness for C1 at capacity 2 with blocks `[1]` and `[2, 3]`. -/
theorem ringbuffer_sliding_window_witness :
    (∀ b ∈ ([[1], [2, 3]] : List (List Int)), 1 ≤ b.length ∧ b.length ≤ 2)
      ∧ (pushAll (List.replicate 2 0) [[1], [2, 3]]
            = some (lastN (List.replicate 2 0 ++ ([[1], [2, 3]] : List (List Int)).flatten) 2)
          ∧ (lastN (List.replicate 2 0 ++ ([[1], [2, 3]] : List (List Int)).flatten) 2).length = 2) :=
  ⟨by decide, ringbuffer_sliding_window 2 [[1], [2, 3]] (by decide)⟩

/-- C2 counterexample: pushing a block of length 3 into a buffer of
capacity 2 does not succeed with the block's final 2 samples — the
numpy slice assignment of line 81 raises a broadcast error (shapes
`(3,)` into `(2,)`), modelled as `none`, so the claim that the push
succeeds and `snapshot()` equals the block's last `capacity` samples is
false. -/
theorem push_oversize_cex :
    push (List.replicate 2 0) [1, 2, 3] = none := by decide

/-- C2 amended: when a single pushed block is longer than the (nonempty)
buffer, the push fails — `audio_buffer[-len(block):] = block` raises an
uncaught broadcast error and the pipeline dies — instead of retaining
the block's final `capacity` samples. -/
theorem push_oversize_fails (buf block : List Int)
    (h1 : 1 ≤ buf.length) (h2 : buf.length < block.length) :
    push buf block = none := by
  unfold push
  rw [if_neg (by omega), if_neg (by omega), if_neg (by omega)]

/-- Witness for the amended C2: a 2-sample block into a 1-sample
buffer. -/
theorem push_oversize_fails_witness :
    1 ≤ ([0] : List Int).length
      ∧ ([0] : List Int).length < ([5, 6] : List Int).length
      ∧ push [0] [5, 6] = none :=
  ⟨by decide, by decide, push_oversize_fails [0] [5, 6] (by decide) (by decide)⟩

/-- C7 counterexample: the queue of line 64 is `queue.Queue()` with no
`maxsize`.  Pushing `N + 1 = 3` blocks into the empty queue (capacity
`N = 2` under the claim) retains all three blocks — including the
oldest, `[1]` — and the code has no drop counter at all, so the
bounded-queue/oldest-eviction claim is false. -/
theorem queue_unbounded_cex :
    (queuePutAll [] [[1], [2], [3]]).length = 3
      ∧ queuePutAll [] [[1], [2], [3]] = [[1], [2], [3]] := by decide

/-- C7 amended: the producer queue is unbounded — every produced block
is retained in FIFO arrival order until consumed; enqueueing never
evicts anything and no drop count exists. -/
theorem queue_retains_all (q blocks : List (List Int)) :
    queuePutAll q blocks = q ++ blocks := by
  induction blocks generalizing q with
  | nil => simp [queuePutAll]
  | cons b bs ih =>
    show queuePutAll (queuePut q b) bs = q ++ b :: bs
    rw [ih]
    simp [queuePut]

/-- C8: the initial rolling buffer of line 63 is
`np.zeros(int(window_seconds * sr))`: it already has the full window
length `int(window_seconds * sample_rate)` before any block is
consumed, and every sample in it is zero (silence), so the first
classification window is well-defined. -/
theorem initial_buffer_silence (window_seconds : ℚ) :
    (audioBufferInit window_seconds).length
        = Int.toNat (pyInt (window_seconds * sr))
      ∧ ∀ x ∈ audioBufferInit window_seconds, x = 0 := by
  constructor
  · simp [audioBufferInit]
  · intro x hx
    exact List.eq_of_mem_replicate hx

/-- Witness for C8 at `window_seconds = 1`. -/
theorem initial_buffer_silence_witness :
    (audioBufferInit 1).length = Int.toNat (pyInt (1 * sr))
      ∧ (0 : Int) = 0 :=
  ⟨(initial_buffer_silence 1).1,
    (initial_buffer_silence 1).2 0
      (by norm_num [audioBufferInit, pyInt, sr, List.mem_replicate])⟩

/-- C3 counterexample: the pipeline performs no clamping.  A classifier
output of `2` (outside `[0,1]`) against threshold `1` is compared raw
and the logged event carries probability `2` unclamped; and for a raw
output `-1` against threshold `0` no event is logged even though the
clamped value `clamp01 (-1) = 0` meets the threshold — so both the
comparison and the recorded value use the unclamped score, refuting the
claim. -/
theorem no_clamping_cex :
    (runLoop (fun _ => some (2 : ℚ)) 1 [0] [[1]] = some ([1], [2])
        ∧ ¬ ((2 : ℚ) ≤ 1))
      ∧ (runLoop (fun _ => some (-1 : ℚ)) 0 [0] [[1]] = some ([1], [])
        ∧ (0 : ℚ) ≤ clamp01 (-1)) := by decide

/-- C3 amended: no clamping occurs anywhere in the pipeline — every
probability recorded in an emitted event is exactly the raw classifier
output for some processed window, and it met the threshold raw
(`threshold ≤ e`), even when it lies outside `[0,1]`. -/
theorem runLoop_events_raw (classify : List Int → Option ℚ) (threshold : ℚ)
    (buf : List Int) (blocks : List (List Int)) (bufF : List Int)
    (events : List ℚ)
    (h : runLoop classify threshold buf blocks = some (bufF, events)) :
    ∀ e ∈ events, threshold ≤ e ∧ ∃ w, classify w = some e := by
  induction blocks generalizing buf events with
  | nil =>
    simp only [runLoop, Option.some.injEq, Prod.mk.injEq] at h
    rw [← h.2]
    intro e he
    simp at he
  | cons b bs ih =>
    simp only [runLoop] at h
    cases hp : push buf b with
    | none => rw [hp] at h; simp at h
    | some buf2 =>
      rw [hp] at h
      simp only [Option.some_bind] at h
      cases hc : classify buf2 with
      | none => rw [hc] at h; simp at h
      | some prob =>
        rw [hc] at h
        simp only [Option.some_bind] at h
        cases hr : runLoop classify threshold buf2 bs with
        | none => rw [hr] at h; simp at h
        | some r =>
          obtain ⟨rf, revs⟩ := r
          rw [hr] at h
          simp only [Option.map_some', Option.some.injEq, Prod.mk.injEq] at h
          obtain ⟨h1, h2⟩ := h
          subst h1
          rw [← h2]
          intro e he
          rcases List.mem_append.1 he with h3 | h3
          · unfold emittedEvent at h3
            by_cases hle : threshold ≤ prob
            · rw [if_pos hle] at h3
              simp only [Option.toList_some, List.mem_singleton] at h3
              subst h3
              exact ⟨hle, buf2, hc⟩
            · rw [if_neg hle] at h3
              simp at h3
          · exact ih buf2 revs hr e h3

/-- Witness for the amended C3: a stub classifier that always returns
`1` against threshold `0`; the single logged event is the raw score
`1`. -/
theorem runLoop_events_raw_witness :
    runLoop (fun _ : List Int => some (1 : ℚ)) 0 [0] [[7]] = some ([7], [1])
      ∧ ((0 : ℚ) ≤ 1 ∧ ∃ w : List Int,
          (fun _ : List Int => some (1 : ℚ)) w = some 1) :=
  ⟨by decide,
    runLoop_events_raw (fun _ : List Int => some (1 : ℚ)) 0 [0] [[7]] [7] [1]
      (by decide) 1 (by decide)⟩

/-- C4: the threshold decision of line 86 is inclusive.  For a
classifier output `p ≥ 0` and a threshold `≤ 1` (its documented range),
an event is emitted if and only if the clamped probability meets the
threshold (and, since no clamping happens in the code, this coincides
with the raw comparison `threshold ≤ p`); a score exactly equal to the
threshold emits an event carrying that score, and any score strictly
below the threshold emits none. -/
theorem threshold_inclusive (p threshold : ℚ) (h0 : 0 ≤ p)
    (h1 : threshold ≤ 1) :
    ((emittedEvent p threshold).isSome = true ↔ threshold ≤ clamp01 p)
      ∧ emittedEvent threshold threshold = some threshold
      ∧ (∀ q, q < threshold → emittedEvent q threshold = none) := by
  have key : threshold ≤ clamp01 p ↔ threshold ≤ p := by
    unfold clamp01
    have h0min : (0 : ℚ) ≤ min 1 p := le_min zero_le_one h0
    rw [max_eq_right h0min, le_min_iff]
    exact ⟨fun hx => hx.2, fun hx => ⟨h1, hx⟩⟩
  refine ⟨?_, ?_, ?_⟩
  · rw [key]
    unfold emittedEvent
    by_cases hle : threshold ≤ p
    · simp [hle]
    · simp [hle]
  · unfold emittedEvent
    rw [if_pos le_rfl]
  · intro q hq
    unfold emittedEvent
    rw [if_neg (not_le.2 hq)]

/-- Witness for C4 at `p = threshold = 1`: the boundary score emits. -/
theorem threshold_inclusive_witness :
    (0 : ℚ) ≤ 1 ∧ (1 : ℚ) ≤ 1 ∧ emittedEvent 1 1 = some 1 :=
  ⟨by norm_num, by norm_num,
    (threshold_inclusive 1 1 (by norm_num) (by norm_num)).2.1⟩

/-- C5 counterexample: `classifyCE` fails (raises) on the window `[1]`
reached after the first block.  The claim predicts that window is
skipped and the loop continues — the second block alone would produce
an event, as the third conjunct shows — but the run over both blocks is
`none`: the uncaught exception kills the whole pipeline and no later
block is processed. -/
theorem classifier_failure_crashes_cex :
    classifyCE [1] = none
      ∧ runLoop classifyCE 0 [0] [[1], [2]] = none
      ∧ runLoop classifyCE 0 [0] [[2]] = some ([2], [1]) := by decide

/-- C5 amended: a failure of the feature-extraction/classification call
on one window is fatal: there is no `try`/`except` around lines 84–88,
so the exception propagates, the run produces no result, and no
subsequent block is processed — regardless of what follows in the
arrival sequence. -/
theorem classifier_failure_fatal (classify : List Int → Option ℚ)
    (threshold : ℚ) (buf block buf2 : List Int) (rest : List (List Int))
    (h1 : push buf block = some buf2) (h2 : classify buf2 = none) :
    runLoop classify threshold buf (block :: rest) = none := by
  simp [runLoop, h1, h2]

/-- Witness for the amended C5: `classifyCE` failing right after the
first block kills a run whose remaining arrivals are `[[9]]`. -/
theorem classifier_failure_fatal_witness :
    push [0] [1] = some [1] ∧ classifyCE [1] = none
      ∧ runLoop classifyCE 0 [0] [[1], [9]] = none :=
  ⟨by decide, by decide,
    classifier_failure_fatal classifyCE 0 [0] [1] [1] [[9]]
      (by decide) (by decide)⟩

/-- C6 counterexample: with `window = 1`, `hop = 2` (so
`hop > window`) and `threshold = 5` (far outside `[0,1]`), startup
succeeds — the silent buffer is allocated, the block size computed and
the listening loop entered — instead of aborting with a fatal
configuration error. -/
theorem startup_no_validation_cex :
    startup 1 2 5 = some (audioBufferInit 1, 32000, 5) := by
  simp only [startup]
  norm_num [pyInt, sr]

/-- C6 amended: neither `parse_args` (lines 101–107) nor
`stream_and_detect` (lines 49–72) validates the configuration: for any
nonnegative window, any hop and any threshold whatsoever, startup
succeeds and the pipeline proceeds to listen.  (The only
configuration-dependent startup failure is the accidental `np.zeros`
error on a negative window size.) -/
theorem startup_never_validates (window hop threshold : ℚ)
    (h : 0 ≤ window) :
    (startup window hop threshold).isSome = true := by
  have hq : (0 : ℚ) ≤ window * (sr : ℚ) :=
    mul_nonneg h (by norm_num [sr])
  have hfloor : 0 ≤ ⌊window * (sr : ℚ)⌋ :=
    Int.le_floor.2 (by exact_mod_cast hq)
  have hcond : ¬ pyInt (window * (sr : ℚ)) < 0 := by
    unfold pyInt
    rw [if_neg (not_lt.2 hq)]
    exact not_lt.2 hfloor
  unfold startup
  rw [if_neg hcond]
  rfl

/-- Witness for the amended C6: the invalid configuration
`window = 1 < hop = 2`, `threshold = 5` is accepted. -/
theorem startup_never_validates_witness :
    (0 : ℚ) ≤ 1 ∧ (startup 1 2 5).isSome = true :=
  ⟨by norm_num, startup_never_validates 1 2 5 (by norm_num)⟩

/-- C9: `extract_features` sanitises its input before computing any
feature: every sample of the audio it hands to the feature
computations is finite, finite samples pass through unchanged, and each
non-finite sample is replaced by a defined neutral value (`0` for NaN,
the largest finite float64 for `±inf`), so input NaN/Inf never reach
the returned feature vector. -/
theorem extract_features_sanitizes (audio : List PyFloat) :
    (∀ x ∈ extractFeaturesSanitize audio, x.isFinite = true)
      ∧ (∀ x ∈ audio, x.isFinite = true → nanToNum x = x)
      ∧ nanToNum .nan = .finite 0
      ∧ nanToNum .inf = .finite float64Max
      ∧ nanToNum .ninf = .finite (-float64Max) := by
  refine ⟨?_, ?_, rfl, rfl, rfl⟩
  · intro x hx
    rcases List.mem_map.1 hx with ⟨y, _, rfl⟩
    cases y <;> rfl
  · intro x _ hfin
    cases x <;> simp_all [PyFloat.isFinite, nanToNum]

/-- Witness for C9 on the input `[NaN]`: the sanitised audio is the
finite `[0]`. -/
theorem extract_features_sanitizes_witness :
    (PyFloat.finite 0).isFinite = true :=
  (extract_features_sanitizes [PyFloat.nan]).1 (PyFloat.finite 0) (by decide)

/-- C10: framing guarantee of `frame_audio`.  For window and hop sizes
with positive sample counts `win = int(window_seconds * sr)` and
`hop = int(hop_seconds * sr)`, the `i`-th returned frame is exactly the
`win`-sample slice of the input starting at `i * hop` (so consecutive
frames start `hop` apart), it lies entirely within the input, and its
length is exactly `win`; and when the input is shorter than one window
the result is the empty list, with no partial frame. -/
theorem frame_audio_framing (audio : List Int) (sampleRate : Nat)
    (window_seconds hop_seconds : ℚ)
    (hw : 1 ≤ winSamples sampleRate window_seconds)
    (hh : 1 ≤ hopSamples sampleRate hop_seconds) :
    (∀ i, ∀ hi : i < (frame_audio audio sampleRate window_seconds hop_seconds).length,
        (frame_audio audio sampleRate window_seconds hop_seconds).get ⟨i, hi⟩
            = (audio.drop (i * hopSamples sampleRate hop_seconds)).take
                (winSamples sampleRate window_seconds)
          ∧ i * hopSamples sampleRate hop_seconds
              + winSamples sampleRate window_seconds ≤ audio.length
          ∧ ((frame_audio audio sampleRate window_seconds hop_seconds).get
              ⟨i, hi⟩).length = winSamples sampleRate window_seconds)
      ∧ (audio.length < winSamples sampleRate window_seconds
          → frame_audio audio sampleRate window_seconds hop_seconds = []) := by
  constructor
  · intro i hi
    have hq := List.get?_eq_get hi
    obtain ⟨hf, hle⟩ := frame_audio_get? audio sampleRate window_seconds
      hop_seconds i _ hq
    refine ⟨hf, hle, ?_⟩
    rw [hf]
    simp only [List.length_take, List.length_drop]
    omega
  · exact frame_audio_short audio sampleRate window_seconds hop_seconds hh

/-- Witness for C10 with a 2-sample input, a 3-sample window and a
2-sample hop (`sr = 1`): no frame is produced. -/
theorem frame_audio_framing_witness :
    1 ≤ winSamples 1 3 ∧ 1 ≤ hopSamples 1 2
      ∧ ([1, 2] : List Int).length < winSamples 1 3
      ∧ frame_audio [1, 2] 1 3 2 = [] :=
  ⟨by norm_num [winSamples, pyInt], by norm_num [hopSamples, pyInt],
    by norm_num [winSamples, pyInt],
    (frame_audio_framing [1, 2] 1 3 2
        (by norm_num [winSamples, pyInt]) (by norm_num [hopSamples, pyInt])).2
      (by norm_num [winSamples, pyInt])⟩

end Laughatlas
